import Mathlib

/-!
Verification of the Open Agent Studio task-execution engine.

The definitions below are a shallow embedding of the Python sources:
  * `agent_orchestrator.py` — the `AgentOrchestrator` class: the step driver
    (`_execute_plan`), the recovery routine (`_self_debug`) and workflow
    generation (`_generate_workflow`, `_map_tool_to_node_type`).
  * `tutorial_agent/live_cv_observer.py` — the `LiveCVObserver` class: the
    observation loop history (`start_observing`), element detection
    (`_detect_ui_elements`), screen analysis (`_claude_analyze_screen`) and
    pattern learning (`_learn_patterns`).
  * `tutorial_agent/executor.py` — the `DemoExecutor` action interpreter
    (`_execute_action`).

External boundaries (the Anthropic API client, MCP tool calls, the YOLO
model, `mss` screen capture, wall-clock timestamps) are modelled as explicit
parameters: a tool call is a function returning `Except String String`
(`.error` models a raised exception), a parsed LLM response is an
`Option`/`Except` of the structured shape the Python code extracts from the
JSON, and timestamps are `Nat` values supplied by the caller.
-/

namespace OpenAgentStudio

/-! ## Python dictionaries for tool arguments

Argument mappings (`Dict[str, Any]` in the source) are modelled as
association lists with string values.  `dictSet` is a single key assignment
(replacing the first occurrence in place, as a Python dict keeps the
original key position) and `dictUpdate` is Python's `dict.update`:
every key of the right operand is assigned into the left one.  -/

abbrev Args := List (String × String)

/-- Lookup of a key in an argument mapping (first binding wins, as Python
dict keys are unique). -/
def dictGet : Args → String → Option String
  | [], _ => none
  | (k, v) :: rest, key => if k = key then some v else dictGet rest key

/-- Assignment `d[k] = v` on a Python dict: the existing binding is replaced
in place, a fresh key is appended at the end. -/
def dictSet : Args → String → String → Args
  | [], k, v => [(k, v)]
  | (k', v') :: rest, k, v =>
      if k' = k then (k, v) :: rest else (k', v') :: dictSet rest k v

/-- `old.update(new)` on Python dicts: every binding of `new` is assigned
into `old` (replacement keys overwrite, all other keys are retained). -/
def dictUpdate (old new : Args) : Args :=
  new.foldl (fun acc kv => dictSet acc kv.1 kv.2) old

/-! ## Orchestrator data model (`agent_orchestrator.py`) -/

/-- One entry of `plan["steps"]` as consumed by `_execute_plan`: the fields
the driver reads (`step_number`, `description`, `tool`, `tool_name`,
`args`).  The purely informational plan fields (`action`,
`expected_result`, `verification`) are not consumed by the driver and are
omitted. -/
structure StepData where
  step_number : Nat
  description : String
  tool : String
  tool_name : String
  args : Args := []
deriving DecidableEq, Repr

/-- The plan dictionary returned by `_understand_and_plan`, restricted to
the keys the driver and workflow generator read. -/
structure Plan where
  task_summary : String
  task_type : String := "unknown"
  steps : List StepData
deriving DecidableEq, Repr

/-- The `TaskStep` dataclass.  `timestamp` (wall clock) is outside the
embedding; `screenshot` is declared in the source and never assigned by the
orchestrator, so it stays `none` here as well. -/
structure TaskStep where
  description : String
  tool : String
  args : Args
  status : String := "pending"
  result : Option String := none
  error : Option String := none
  screenshot : Option String := none
deriving DecidableEq, Repr

/-- One entry of the `results` list built by `_execute_plan` (the dict
`{"step": ..., "success": True, "result": ...}`). -/
structure StepResult where
  step : Nat
  success : Bool
  result : String
deriving DecidableEq, Repr

/-- The fix suggestion `_self_debug` extracts from the LLM response
(`diagnosis`/`explanation` are read only for printing and omitted). -/
structure Fix where
  fix_strategy : String
  new_args : Args := []
  alternative_tool : String := ""
deriving DecidableEq, Repr

/-- The best-effort screenshot taken at the start of `_self_debug`: a
capture failure is swallowed (`except: pass`), leaving no snapshot. -/
def captureSnapshot : Except String String → Option String
  | .ok s => some s
  | .error _ => none

/-- `AgentOrchestrator._self_debug`.  `screenshotCapture` is the outcome of
the `take_screenshot` tool call, `fixParse` the outcome of extracting and
JSON-parsing the fix suggestion (`none` models the `except` path: an
unparseable response or a response missing a required key).  The returned
pair is the (possibly arg-patched) failed step and the boolean the routine
reports to the driver.  Every implemented branch of the source returns
`False`; only `modify_args` mutates the step (`failed_step.args.update`). -/
def selfDebug (screenshotCapture : Except String String) (failedStep : TaskStep)
    (fixParse : Option Fix) : TaskStep × Bool :=
  let _snapshot := captureSnapshot screenshotCapture
  match fixParse with
  | none => (failedStep, false)
  | some fix =>
      if fix.fix_strategy = "retry" then
        (failedStep, false)
      else if fix.fix_strategy = "modify_args" then
        ({ failedStep with args := dictUpdate failedStep.args fix.new_args }, false)
      else if fix.fix_strategy = "alternative_approach" then
        (failedStep, false)
      else
        (failedStep, false)

/-- The execution environment of the step driver: which MCP clients are
available (`mcp_clients` keys with a live client), the external tool-call
boundary (indexed by the position of the step in the plan, since the outer
world is stateful), and the self-debug routine as the driver sees it — a
function from the failed step to the possibly-patched step and the reported
boolean (`_self_debug` both mutates `failed_step` and returns a `bool`). -/
structure ExecEnv where
  clients : List String
  callTool : Nat → StepData → Except String String
  debug : Nat → TaskStep → TaskStep × Bool

/-- The `TaskStep` object created at the start of a driver iteration
(status is set to `"running"` just before the tool call). -/
def initStep (sd : StepData) : TaskStep :=
  { description := sd.description, tool := sd.tool, args := sd.args, status := "running" }

/-- The failed step as it looks when `_self_debug` is entered: status
`"error"`, the raised exception stored in `error`. -/
def failedOf (sd : StepData) (e : String) : TaskStep :=
  { initStep sd with status := "error", error := some e }

/-- The body of the `try` block of one driver iteration: client selection
(`ValueError` for an unknown tool type, `RuntimeError` for a missing
client) followed by the tool call; any `.error` models a raised
exception. -/
def toolDispatch (env : ExecEnv) (i : Nat) (sd : StepData) : Except String String :=
  if sd.tool = "desktop" ∨ sd.tool = "browser" ∨ sd.tool = "vision" then
    if sd.tool ∈ env.clients then env.callTool i sd
    else .error ("MCP client for " ++ sd.tool ++ " not available")
  else .error ("Unknown tool type: " ++ sd.tool)

/-- The three accumulators of `_execute_plan`: `all_success`, `results` and
`self.task_steps`. -/
structure DriverOutcome where
  success : Bool
  results : List StepResult
  taskSteps : List TaskStep
deriving DecidableEq, Repr

/-- The loop of `AgentOrchestrator._execute_plan`, started at plan position
`i`.  On a successful tool call the step is recorded as completed and an
entry is appended to `results`; on a failure the driver consults
`_self_debug`: a `True` verdict marks the step completed (with **no**
`results` entry) and continues, a `False` verdict breaks out of the loop,
returning the accumulators as they stand.  `all_success` is `True` at the
top of every iteration (it is reset to `True` whenever a failure is fixed),
so the final flag is `False` exactly when the loop broke. -/
def executePlanFrom (env : ExecEnv) : Nat → List StepData → DriverOutcome
  | _, [] => { success := true, results := [], taskSteps := [] }
  | i, sd :: rest =>
    match toolDispatch env i sd with
    | .ok r =>
        let tail := executePlanFrom env (i + 1) rest
        { success := tail.success,
          results := { step := sd.step_number, success := true, result := r } :: tail.results,
          taskSteps := { initStep sd with status := "completed", result := some r } :: tail.taskSteps }
    | .error e =>
        let dbg := env.debug i (failedOf sd e)
        if dbg.2 then
          let tail := executePlanFrom env (i + 1) rest
          { success := tail.success,
            results := tail.results,
            taskSteps := { dbg.1 with status := "completed" } :: tail.taskSteps }
        else
          { success := false, results := [], taskSteps := [dbg.1] }

/-- The dict returned by `_execute_plan` (`success`, `steps`,
`task_summary`) together with the `self.task_steps` records the run left
behind. -/
structure ExecPlanResult where
  success : Bool
  steps : List StepResult
  task_summary : String
  taskSteps : List TaskStep
deriving DecidableEq, Repr

/-- `AgentOrchestrator._execute_plan`. -/
def executePlan (env : ExecEnv) (plan : Plan) : ExecPlanResult :=
  let o := executePlanFrom env 0 plan.steps
  { success := o.success, steps := o.results,
    task_summary := plan.task_summary, taskSteps := o.taskSteps }

/-- A plan position advances past the driver: either its tool call
succeeds, or it fails and `_self_debug` reports the failure fixed. -/
def stepAdvances (env : ExecEnv) (i : Nat) (sd : StepData) : Prop :=
  match toolDispatch env i sd with
  | .ok _ => True
  | .error e => (env.debug i (failedOf sd e)).2 = true

/-- The `results` entries produced by the first `k` plan positions that
succeed on their first tool invocation (used to characterise what
`_execute_plan` reports when it halts at position `k`). -/
def firstTryEntries (env : ExecEnv) : Nat → List StepData → Nat → List StepResult
  | _, _, 0 => []
  | _, [], _ + 1 => []
  | i, sd :: rest, k + 1 =>
    match toolDispatch env i sd with
    | .ok r => { step := sd.step_number, success := true, result := r } ::
        firstTryEntries env (i + 1) rest k
    | .error _ => firstTryEntries env (i + 1) rest k

/-! ## Workflow generation (`_generate_workflow`, `_map_tool_to_node_type`) -/

/-- Node id `f"node_{i}"` for the enumerate index `i`. -/
def nodeId (i : Nat) : String := "node_" ++ toString i

/-- `AgentOrchestrator._map_tool_to_node_type`: a fixed dict lookup with
default `"nodes.basic.BasicNodeA"` (the `args` parameter is accepted and
unused, as in the source). -/
def mapToolToNodeType (tool : String) (_args : Args) : String :=
  if tool = "take_screenshot" then "nodes.widget.ImageNode"
  else if tool = "ocr_text" then "nodes.widget.ImageNode"
  else if tool = "click" then "nodes.basic.BasicNodeA"
  else if tool = "type_text" then "nodes.basic.BasicNodeB"
  else if tool = "navigate" then "nodes.basic.BasicNodeA"
  else "nodes.basic.BasicNodeA"

/-- One node of the generated node graph.  `data` is the payload serialised
into `custom.Data`: the dict `{"type": step.tool, **step.args}`. -/
structure Node where
  id : String
  name : String
  type : String
  data : Args
deriving DecidableEq, Repr

/-- A connection `{"out": [out_id, 0], "in": [in_id, 0]}`. -/
structure Connection where
  outId : String
  outPort : Nat := 0
  inId : String
  inPort : Nat := 0
deriving DecidableEq, Repr

/-- The loop of `_generate_workflow` over `enumerate(self.task_steps)`
starting at enumerate index `i`: steps whose status is not `"completed"`
are skipped; a kept step `i` contributes node `node_i` and, when `i > 0`,
a connection from `node_(i-1)` to `node_i`. -/
def buildNodes : Nat → List TaskStep → List Node × List Connection
  | _, [] => ([], [])
  | i, s :: rest =>
    let tail := buildNodes (i + 1) rest
    if s.status = "completed" then
      ({ id := nodeId i, name := s.description,
         type := mapToolToNodeType s.tool s.args,
         data := dictUpdate [("type", s.tool)] s.args } :: tail.1,
       (if 0 < i then
          [{ outId := nodeId (i - 1), inId := nodeId i }] else []) ++ tail.2)
    else tail

/-- The generated workflow: the node dict keyed by node id, the connection
list, and the metadata the source fills in (`created` is a wall-clock
timestamp and is outside the embedding). -/
structure Workflow where
  nodes : List (String × Node)
  connections : List Connection
  name : String
  task_type : String
  success_rate : String
deriving DecidableEq, Repr

/-- `AgentOrchestrator._generate_workflow` over the recorded task steps. -/
def generateWorkflow (taskSteps : List TaskStep) (plan : Plan) : Workflow :=
  let built := buildNodes 0 taskSteps
  { nodes := built.1.map (fun n => (n.id, n)),
    connections := built.2,
    name := plan.task_summary,
    task_type := plan.task_type,
    success_rate := "100%" }

/-- The fragment of `process_user_message` deciding workflow generation:
`_generate_workflow` runs exactly when the execution result's success flag
is true. -/
def processGenerateWorkflow (env : ExecEnv) (plan : Plan) : Option Workflow :=
  if (executePlan env plan).success then
    some (generateWorkflow (executePlan env plan).taskSteps plan)
  else none

/-! ## Live CV observer (`tutorial_agent/live_cv_observer.py`) -/

/-- A YOLO detection box as read from `results.boxes` (class index, corner
coordinates, confidence).  Image coordinates are modelled as rationals. -/
structure RawBox where
  cls : Nat
  x1 : Rat
  y1 : Rat
  x2 : Rat
  y2 : Rat
  conf : Rat
deriving DecidableEq, Repr

/-- Python `int()` on a rational: truncation toward zero. -/
def pyInt (q : Rat) : Int :=
  if 0 ≤ q then q.floor else -((-q).floor)

/-- One element of the list `_detect_ui_elements` builds per box. -/
structure UIElement where
  type : String
  bbox : List Rat
  confidence : Rat
  center : Int × Int
deriving DecidableEq, Repr

/-- The dict built for one YOLO box (`names[cls]`, `xyxy`, `conf`, and the
truncated box center). -/
def mkUIElement (names : Nat → String) (b : RawBox) : UIElement :=
  { type := names b.cls,
    bbox := [b.x1, b.y1, b.x2, b.y2],
    confidence := b.conf,
    center := (pyInt ((b.x1 + b.x2) / 2), pyInt ((b.y1 + b.y2) / 2)) }

/-- `LiveCVObserver._detect_ui_elements`: with no model loaded the result
is `[]`; with a model, the YOLO inference outcome (`.error` models a raised
exception) is mapped to element dicts, and any inference failure is caught
and yields `[]` rather than propagating. -/
def detectUIElements (hasModel : Bool) (names : Nat → String)
    (inference : Except String (List RawBox)) : List UIElement :=
  if hasModel then
    match inference with
    | .ok boxes => boxes.map (mkUIElement names)
    | .error _ => []
  else []

/-- The `ObservationResult` dataclass (timestamps are abstract `Nat`
ticks). -/
structure ObservationResult where
  timestamp : Nat
  screenshot_b64 : String
  detected_elements : List UIElement
  claude_analysis : String
  suggested_next_action : Option String
  confidence : Rat
  debug_suggestions : List String
deriving DecidableEq, Repr

/-- One iteration of the history bookkeeping in `start_observing`:
`self.observation_history.append(observation)` — nothing else ever writes
the history. -/
def observerAppend (history : List ObservationResult) (obs : ObservationResult) :
    List ObservationResult :=
  history ++ [obs]

/-- The observation history after the observer loop has run one cycle per
element of `incoming`, starting from `history`. -/
def runObserverHistory (history : List ObservationResult)
    (incoming : List ObservationResult) : List ObservationResult :=
  incoming.foldl observerAppend history

/-- An entry of `self.pattern_db`: `{"first_seen": ..., "count": ...,
"contexts": []}` (first-seen wall-clock time is an abstract `Nat`). -/
structure PatternEntry where
  first_seen : Nat
  count : Nat
  contexts : List String
deriving DecidableEq, Repr

/-- The pattern table, a Python dict keyed by pattern label (insertion
order preserved, keys unique). -/
abbrev PatternDB := List (String × PatternEntry)

/-- Key lookup in the pattern table. -/
def patternLookup : PatternDB → String → Option PatternEntry
  | [], _ => none
  | (k, e) :: rest, p => if k = p then some e else patternLookup rest p

/-- `self.pattern_db[pattern]["count"] += 1`: bump the count of the (first)
binding of `p`, leaving every other binding untouched. -/
def patternIncrement : PatternDB → String → PatternDB
  | [], _ => []
  | (k, e) :: rest, p =>
      if k = p then (k, { e with count := e.count + 1 }) :: rest
      else (k, e) :: patternIncrement rest p

/-- The body of the `for pattern in patterns` loop of `_learn_patterns`:
an unseen label is inserted with count 1 (and first-seen time `now`), a
seen label has its count incremented. -/
def learnPattern (now : Nat) (db : PatternDB) (p : String) : PatternDB :=
  match patternLookup db p with
  | none => db ++ [(p, { first_seen := now, count := 1, contexts := [] })]
  | some _ => patternIncrement db p

/-- `LiveCVObserver._learn_patterns`. -/
def learnPatterns (db : PatternDB) (now : Nat) (patterns : List String) : PatternDB :=
  patterns.foldl (learnPattern now) db

/-- Count of a label in the pattern table (0 when absent). -/
def countOf (db : PatternDB) (q : String) : Nat :=
  match patternLookup db q with
  | some e => e.count
  | none => 0

/-- The parsed screen-understanding response of `_claude_analyze_screen`
(`patterns_observed` is optional: the source checks key presence before
learning). -/
structure ScreenAnalysis where
  understanding : String
  state : String
  next_action : Option String
  confidence : Rat
  issues_detected : List String
  debug_suggestions : List String
  patterns_observed : Option (List String)
deriving DecidableEq, Repr

/-- The dict returned by the `except` branch of `_claude_analyze_screen`
when the Anthropic call or the JSON parse fails (it carries no
`patterns_observed` key). -/
def fallbackAnalysis : ScreenAnalysis :=
  { understanding := "Analysis failed", state := "unknown", next_action := none,
    confidence := 0, issues_detected := [], debug_suggestions := [],
    patterns_observed := none }

/-- `LiveCVObserver._claude_analyze_screen`: `response` is the outcome of
the Anthropic call plus JSON extraction (`.error` models any exception on
that path).  A parsed response feeds `patterns_observed` (when present)
into `_learn_patterns`; a failure returns the fallback dict and leaves the
pattern table untouched.  `now` is the wall-clock tick used for newly
inserted patterns. -/
def claudeAnalyzeScreen (db : PatternDB) (now : Nat)
    (response : Except String ScreenAnalysis) : ScreenAnalysis × PatternDB :=
  match response with
  | .ok a =>
      match a.patterns_observed with
      | some ps => (a, learnPatterns db now ps)
      | none => (a, db)
  | .error _ => (fallbackAnalysis, db)

/-! ## Demo executor (`tutorial_agent/executor.py`) -/

/-- Split a character list at its first colon (`none` when there is no
colon): the character-level content of Python `s.split(":", 1)`. -/
def splitCharsOnColon : List Char → Option (List Char × List Char)
  | [] => none
  | c :: rest =>
      if c = ':' then some ([], rest)
      else
        match splitCharsOnColon rest with
        | none => none
        | some (pre, post) => some (c :: pre, post)

/-- Python `action.split(":", 1)` guarded by `":" not in action`: `none`
when the action has no colon, otherwise the command (before the first
colon) and the remainder. -/
def splitColon (s : String) : Option (String × String) :=
  match splitCharsOnColon s.data with
  | none => none
  | some (pre, post) => some (String.mk pre, String.mk post)

/-- The automation handler dispatched by `_execute_action`. -/
inductive ActionEffect where
  | openApp : String → ActionEffect
  | createFile : String → ActionEffect
  | typeCode : String → ActionEffect
  | typeText : String → ActionEffect
  | runTerminal : String → ActionEffect
  | clickElement : String → ActionEffect
  | waitFor : Rat → ActionEffect
  | screenshot : String → ActionEffect
  | hotkey : String → ActionEffect
deriving DecidableEq, Repr

/-- What a call to `_execute_action` did. -/
inductive ActionOutcome where
  /-- No colon in the action: warn and return, nothing executed. -/
  | invalidFormat : ActionOutcome
  /-- An automation handler was dispatched. -/
  | dispatched : ActionEffect → ActionOutcome
  /-- `screenshot` command with `pyautogui` unavailable: nothing happens. -/
  | screenshotSkipped : String → ActionOutcome
  /-- Unrecognised command: warn and return, nothing executed. -/
  | unknownCommand : String → String → ActionOutcome
deriving DecidableEq, Repr

/-- The commands `_execute_action` recognises. -/
def knownCommands : List String :=
  ["open", "create_file", "type_code", "type_text", "run_terminal",
   "click", "wait", "screenshot", "hotkey"]

/-- `DemoExecutor._execute_action`.  `parseFloat` is Python's `float()`
(`none` models a `ValueError`, the only exception this dispatch itself can
raise, via `wait`); `hasPyautogui` is whether the `pyautogui` import
succeeded.  The returned pair is the outcome (`.error` = an exception
propagated to the caller) and the entries appended to
`self.execution_log`. -/
def executeAction (parseFloat : String → Option Rat) (hasPyautogui : Bool)
    (action : String) : Except String ActionOutcome × List String :=
  match splitColon action with
  | none => (.ok .invalidFormat, [])
  | some (command, param) =>
    let logEntry := "   " ++ command ++ ": " ++ param
    let out : Except String ActionOutcome :=
      if command = "open" then .ok (.dispatched (.openApp param))
      else if command = "create_file" then .ok (.dispatched (.createFile param))
      else if command = "type_code" then .ok (.dispatched (.typeCode param))
      else if command = "type_text" then .ok (.dispatched (.typeText param))
      else if command = "run_terminal" then .ok (.dispatched (.runTerminal param))
      else if command = "click" then .ok (.dispatched (.clickElement param))
      else if command = "wait" then
        match parseFloat param with
        | some secs => .ok (.dispatched (.waitFor secs))
        | none => .error ("could not convert string to float: " ++ param)
      else if command = "screenshot" then
        .ok (if hasPyautogui then .dispatched (.screenshot param)
             else .screenshotSkipped param)
      else if command = "hotkey" then .ok (.dispatched (.hotkey param))
      else .ok (.unknownCommand command param)
    (out, [logEntry])

/-! ## Driver lemmas -/

/-- Characterisation of a halted run: if every plan position before `k`
advances, position `k` fails its tool call and `_self_debug` reports the
failure unfixed, then the driver stops with `all_success = False`, exactly
the steps `0..k` started (one `TaskStep` record each), and the reported
`results` are the first-try successes among positions `0..k-1`. -/
theorem executePlanFrom_halt (env : ExecEnv) :
    ∀ (k i : Nat) (l : List StepData) (hk : k < l.length),
      (∀ j (hj : j < k), stepAdvances env (i + j) (l.get ⟨j, Nat.lt_trans hj hk⟩)) →
      ∀ (e : String),
        toolDispatch env (i + k) (l.get ⟨k, hk⟩) = Except.error e →
        (env.debug (i + k) (failedOf (l.get ⟨k, hk⟩) e)).2 = false →
        (executePlanFrom env i l).success = false ∧
        (executePlanFrom env i l).taskSteps.length = k + 1 ∧
        (executePlanFrom env i l).results = firstTryEntries env i l k := by
  intro k
  induction k with
  | zero =>
    intro i l hk hadv e hfail hdebug
    cases l with
    | nil => simp at hk
    | cons sd rest =>
      simp only [List.get] at hfail hdebug
      rw [Nat.add_zero] at hfail hdebug
      simp only [executePlanFrom, firstTryEntries]
      rw [hfail]
      simp [hdebug]
  | succ k ih =>
    intro i l hk hadv e hfail hdebug
    cases l with
    | nil => simp at hk
    | cons sd rest =>
      have hk2 : k < rest.length := by
        simpa using Nat.lt_of_succ_lt_succ hk
      have hfail2 : toolDispatch env ((i + 1) + k) (rest.get ⟨k, hk2⟩) = Except.error e := by
        have hi : (i + 1) + k = i + (k + 1) := by omega
        rw [hi]; exact hfail
      have hdebug2 : (env.debug ((i + 1) + k) (failedOf (rest.get ⟨k, hk2⟩) e)).2 = false := by
        have hi : (i + 1) + k = i + (k + 1) := by omega
        rw [hi]; exact hdebug
      have hadv2 : ∀ j (hj : j < k),
          stepAdvances env ((i + 1) + j) (rest.get ⟨j, Nat.lt_trans hj hk2⟩) := by
        intro j hj
        have hi : (i + 1) + j = i + (j + 1) := by omega
        rw [hi]
        exact hadv (j + 1) (Nat.succ_lt_succ hj)
      have hadv0 : stepAdvances env i sd := by
        have h0 := hadv 0 (Nat.succ_pos k)
        rwa [Nat.add_zero] at h0
      have IH := ih (i + 1) rest hk2 hadv2 e hfail2 hdebug2
      cases hd : toolDispatch env i sd with
      | ok r =>
        simp only [executePlanFrom, firstTryEntries]
        rw [hd]
        simpa using IH
      | error e0 =>
        have hfix : (env.debug i (failedOf sd e0)).2 = true := by
          have h0 := hadv0
          simp only [stepAdvances] at h0
          rw [hd] at h0
          exact h0
        simp only [executePlanFrom, firstTryEntries]
        rw [hd]
        simp [hfix, IH.1, IH.2.1, IH.2.2]

/-! ## C1: the driver stops when recovery reports failure -/

/-- C1: for every plan, if the tool invocation of step `k` fails
(`toolDispatch` raises) and the self-debug routine reports failure
(returns `false`), then `_execute_plan` stops immediately: the returned
success flag is `false` and exactly the steps `0..k` were ever started (a
`TaskStep` record is created exactly when a step is invoked, so steps
after `k` are never invoked). -/
theorem c1_driver_halts_on_recovery_failure (env : ExecEnv) (plan : Plan) (k : Nat)
    (hk : k < plan.steps.length)
    (hadv : ∀ j (hj : j < k), stepAdvances env j (plan.steps.get ⟨j, Nat.lt_trans hj hk⟩))
    (e : String)
    (hfail : toolDispatch env k (plan.steps.get ⟨k, hk⟩) = Except.error e)
    (hdebug : (env.debug k (failedOf (plan.steps.get ⟨k, hk⟩) e)).2 = false) :
    (executePlan env plan).success = false ∧
    (executePlan env plan).taskSteps.length = k + 1 := by
  have h := executePlanFrom_halt env k 0 plan.steps hk
    (by intro j hj; rw [Nat.zero_add]; exact hadv j hj) e
    (by rw [Nat.zero_add]; exact hfail)
    (by rw [Nat.zero_add]; exact hdebug)
  exact ⟨h.1, h.2.1⟩

def envC1 : ExecEnv :=
  { clients := ["desktop"],
    callTool := fun _ _ => .error "element not found",
    debug := fun _ s => (s, false) }

def planC1 : Plan :=
  { task_summary := "open gmail",
    steps := [{ step_number := 1, description := "open gmail", tool := "desktop",
                tool_name := "click" },
              { step_number := 2, description := "mark read", tool := "desktop",
                tool_name := "click" }] }

/-- Witness for C1 at a concrete two-step plan whose first step fails and
whose recovery reports failure. -/
theorem c1_witness :
    (executePlan envC1 planC1).success = false ∧
    (executePlan envC1 planC1).taskSteps.length = 0 + 1 :=
  c1_driver_halts_on_recovery_failure envC1 planC1 0 (by decide)
    (fun j hj => absurd hj (Nat.not_lt_zero j)) "element not found" rfl rfl

/-! ## C6: what the final task result enumerates -/

/-- C6 (amended): when the driver halts at a failed step `k`, the returned
`steps` list of the task result enumerates only the steps that succeeded on
their first tool invocation before `k` — the failed step, any recovered
step, and the never-reached steps have no entry at all. -/
theorem c6_results_list_only_first_try_successes (env : ExecEnv) (plan : Plan) (k : Nat)
    (hk : k < plan.steps.length)
    (hadv : ∀ j (hj : j < k), stepAdvances env j (plan.steps.get ⟨j, Nat.lt_trans hj hk⟩))
    (e : String)
    (hfail : toolDispatch env k (plan.steps.get ⟨k, hk⟩) = Except.error e)
    (hdebug : (env.debug k (failedOf (plan.steps.get ⟨k, hk⟩) e)).2 = false) :
    (executePlan env plan).steps = firstTryEntries env 0 plan.steps k := by
  have h := executePlanFrom_halt env k 0 plan.steps hk
    (by intro j hj; rw [Nat.zero_add]; exact hadv j hj) e
    (by rw [Nat.zero_add]; exact hfail)
    (by rw [Nat.zero_add]; exact hdebug)
  exact h.2.2

def envC6 : ExecEnv :=
  { clients := ["desktop", "browser"],
    callTool := fun i _ => if i = 0 then .ok "clicked" else .error "timeout",
    debug := fun _ s => (s, false) }

def planC6 : Plan :=
  { task_summary := "form fill",
    steps := [{ step_number := 1, description := "click login", tool := "desktop",
                tool_name := "click" },
              { step_number := 2, description := "type user", tool := "desktop",
                tool_name := "type_text" },
              { step_number := 3, description := "submit", tool := "desktop",
                tool_name := "click" }] }

/-- Counterexample to C6 as stated: on a three-step plan whose second step
fails (recovery reporting failure), the returned per-step outcome list does
not contain an entry for every step of the plan — the failed step and the
never-reached step are omitted. -/
theorem c6_counterexample :
    ¬ (∀ sd ∈ planC6.steps,
        ∃ r ∈ (executePlan envC6 planC6).steps, r.step = sd.step_number) := by
  decide

/-- Witness for C6 (amended) at the same three-step plan: the reported
list is exactly the first-try successes before the failed position. -/
theorem c6_witness :
    (executePlan envC6 planC6).steps = firstTryEntries envC6 0 planC6.steps 1 :=
  c6_results_list_only_first_try_successes envC6 planC6 1 (by decide)
    (fun j hj => by
      have hj0 : j = 0 := by omega
      subst hj0
      exact True.intro)
    "timeout" rfl rfl

/-! ## Dictionary merge lemmas -/

theorem dictGet_dictSet_self (d : Args) (k v : String) :
    dictGet (dictSet d k v) k = some v := by
  induction d with
  | nil => simp [dictSet, dictGet]
  | cons kv rest ih =>
    obtain ⟨k0, v0⟩ := kv
    by_cases h : k0 = k
    · subst h; simp [dictSet, dictGet]
    · simp [dictSet, dictGet, h, ih]

theorem dictGet_dictSet_ne (d : Args) (k v q : String) (h : q ≠ k) :
    dictGet (dictSet d k v) q = dictGet d q := by
  induction d with
  | nil => simp [dictSet, dictGet, Ne.symm h]
  | cons kv rest ih =>
    obtain ⟨k0, v0⟩ := kv
    by_cases h0 : k0 = k
    · subst h0
      simp [dictSet, dictGet, Ne.symm h]
    · by_cases hq : k0 = q
      · subst hq
        simp [dictSet, dictGet, h0]
      · simp [dictSet, dictGet, h0, hq, ih]

theorem dictGet_eq_none_of_not_mem (d : Args) (q : String)
    (h : q ∉ d.map Prod.fst) : dictGet d q = none := by
  induction d with
  | nil => rfl
  | cons kv rest ih =>
    obtain ⟨k0, v0⟩ := kv
    simp only [List.map_cons, List.mem_cons] at h
    push_neg at h
    simp [dictGet, Ne.symm h.1, ih h.2]

/-- The merge `old.update(new)` looks up replacement keys in `new` first
and falls back to `old` — provided the replacement dict has unique keys
(always true of a parsed JSON object). -/
theorem dictGet_dictUpdate (old new : Args) (h : (new.map Prod.fst).Nodup)
    (q : String) :
    dictGet (dictUpdate old new) q =
      match dictGet new q with
      | some v => some v
      | none => dictGet old q := by
  induction new generalizing old with
  | nil => simp [dictUpdate, dictGet]
  | cons kv tl ih =>
    obtain ⟨k, v⟩ := kv
    simp only [List.map_cons, List.nodup_cons] at h
    have hupd : dictUpdate old ((k, v) :: tl) = dictUpdate (dictSet old k v) tl := rfl
    rw [hupd, ih (dictSet old k v) h.2]
    by_cases hq : k = q
    · subst hq
      have hnone : dictGet tl k = none := dictGet_eq_none_of_not_mem tl k h.1
      simp [hnone, dictGet, dictGet_dictSet_self]
    · cases hd : dictGet tl q with
      | some w => simp [hd, dictGet, hq]
      | none => simp [hd, dictGet, hq, dictGet_dictSet_ne old k v q (Ne.symm hq)]

/-! ## C2: the Skip strategy -/

def stepC2 : TaskStep :=
  { description := "click login", tool := "desktop", args := [("target", "login")],
    status := "error", error := some "element not found" }

def fixC2 : Fix := { fix_strategy := "skip" }

/-- Counterexample to C2 as stated: for a failed step whose parsed
diagnosis selects the `skip` strategy, `_self_debug` does not mark the
step's result as a no-op success and does not return `true` — the step
comes back unchanged (its `result` still `none`, status still `"error"`)
and the verdict is `false`. -/
theorem c2_counterexample :
    (selfDebug (.ok "snapshot") stepC2 (some fixC2)).2 ≠ true ∧
    (selfDebug (.ok "snapshot") stepC2 (some fixC2)).1 = stepC2 := by
  decide

/-- C2 (amended): the `skip` strategy has no branch in `_self_debug` — it
falls through to the final `else`, which leaves the failed step untouched
and returns `false`, so execution halts instead of continuing. -/
theorem c2_skip_returns_false (cap : Except String String) (step : TaskStep)
    (fix : Fix) (h : fix.fix_strategy = "skip") :
    selfDebug cap step (some fix) = (step, false) := by
  simp only [selfDebug, h]
  rfl

/-- Witness for C2 (amended) at a concrete skip fix. -/
theorem c2_witness :
    selfDebug (.ok "snapshot") stepC2 (some fixC2) = (stepC2, false) :=
  c2_skip_returns_false (.ok "snapshot") stepC2 fixC2 rfl

/-! ## C5: the ModifyArgs strategy -/

def stepC5 : TaskStep :=
  { description := "click login", tool := "desktop",
    args := [("x", "10"), ("button", "left")],
    status := "error", error := some "element not found" }

def fixC5 : Fix :=
  { fix_strategy := "modify_args", new_args := [("x", "120"), ("y", "340")] }

/-- Counterexample to C5 as stated: for a `modify_args` fix the routine
does merge the replacement arguments into the step, but it never
re-invokes the tool (it consults no tool invoker at all) and returns
`false` unconditionally — so even in an environment where the
re-invocation would succeed, the claimed `true` verdict is impossible. -/
theorem c5_counterexample :
    (selfDebug (.ok "snapshot") stepC5 (some fixC5)).1.args =
      [("x", "120"), ("button", "left"), ("y", "340")] ∧
    (selfDebug (.ok "snapshot") stepC5 (some fixC5)).2 ≠ true := by
  decide

/-- C5 (amended): for a `modify_args` fix, `_self_debug` merges the
replacement arguments into the step's argument mapping exactly as claimed
(replacement keys overwrite, keys absent from the replacements keep their
prior value), but performs no re-invocation and returns `false`. -/
theorem c5_modify_args_merges_without_reinvoke (cap : Except String String)
    (step : TaskStep) (fix : Fix)
    (h : fix.fix_strategy = "modify_args")
    (hnd : (fix.new_args.map Prod.fst).Nodup) :
    selfDebug cap step (some fix) =
      ({ step with args := dictUpdate step.args fix.new_args }, false) ∧
    ∀ q, dictGet (dictUpdate step.args fix.new_args) q =
      match dictGet fix.new_args q with
      | some v => some v
      | none => dictGet step.args q := by
  constructor
  · simp only [selfDebug, h]
    rfl
  · intro q
    exact dictGet_dictUpdate step.args fix.new_args hnd q

/-- Witness for C5 (amended) at a concrete modify-args fix: the merged
mapping overwrites `x`, keeps `button`, adds `y`, and the verdict is
`false`. -/
theorem c5_witness :
    selfDebug (.ok "snapshot") stepC5 (some fixC5) =
      ({ stepC5 with args := dictUpdate stepC5.args fixC5.new_args }, false) ∧
    dictGet (dictUpdate stepC5.args fixC5.new_args) "button" = some "left" := by
  constructor
  · exact (c5_modify_args_merges_without_reinvoke (.ok "snapshot") stepC5 fixC5
      rfl (by decide)).1
  · rw [(c5_modify_args_merges_without_reinvoke (.ok "snapshot") stepC5 fixC5
      rfl (by decide)).2 "button"]
    rfl

/-! ## C3: the observation history -/

def obsC3 (i : Nat) : ObservationResult :=
  { timestamp := i, screenshot_b64 := "", detected_elements := [],
    claude_analysis := "", suggested_next_action := none, confidence := 0,
    debug_suggestions := [] }

/-- Counterexample to C3 as stated, at the spec's own acceptance test
(bound 5, 20 injected observations): after 20 observer cycles the history
holds all 20 observations — nothing is ever evicted, and no bound is
configured anywhere in the observer. -/
theorem c3_counterexample :
    (runObserverHistory [] ((List.range 20).map obsC3)).length = 20 ∧
    ¬ (runObserverHistory [] ((List.range 20).map obsC3)).length ≤ 5 := by
  decide

/-- C3 (amended): the observation history is unbounded and append-only —
each observer cycle appends its observation at the end and nothing is
evicted, so after any run the history is the previous history followed by
every new observation in original relative order. -/
theorem c3_history_append_only (h incoming : List ObservationResult) :
    runObserverHistory h incoming = h ++ incoming := by
  induction incoming generalizing h with
  | nil => simp [runObserverHistory]
  | cons o rest ih =>
    have hstep : runObserverHistory h (o :: rest) =
        runObserverHistory (h ++ [o]) rest := rfl
    rw [hstep, ih]
    simp

/-! ## C4: parse failures of the Diagnostic Service -/

/-- Counterexample to C4 as stated: in the screen-understanding shape, an
unparseable response is not surfaced as an error — `_claude_analyze_screen`
returns its fallback dict normally, with empty `issues_detected` and
`debug_suggestions` lists, which is exactly the silent no-issue outcome the
claim rules out. -/
theorem c4_counterexample :
    (claudeAnalyzeScreen [] 0 (.error "not json")).1.issues_detected = [] ∧
    (claudeAnalyzeScreen [] 0 (.error "not json")).1.debug_suggestions = [] ∧
    (claudeAnalyzeScreen [] 0 (.error "not json")).1.understanding = "Analysis failed" :=
  ⟨rfl, rfl, rfl⟩

/-- C4 (amended): the two shapes differ. The failure-diagnosis caller
(`_self_debug`) fails closed — an unparseable response makes recovery
report failure. The screen-understanding caller
(`_claude_analyze_screen`) does not: a parse failure is swallowed into a
fallback analysis (understanding `"Analysis failed"`, state `"unknown"`,
confidence 0) whose issue and suggestion lists are empty, downstream
indistinguishable from a no-issue observation (in particular no error
callback can fire from it). -/
theorem c4_parse_failure_handling (cap : Except String String) (step : TaskStep)
    (db : PatternDB) (now : Nat) (e : String) :
    selfDebug cap step none = (step, false) ∧
    claudeAnalyzeScreen db now (.error e) = (fallbackAnalysis, db) ∧
    fallbackAnalysis.issues_detected = [] ∧
    fallbackAnalysis.debug_suggestions = [] :=
  ⟨rfl, rfl, rfl, rfl⟩

/-! ## C7: monotonicity of the pattern table -/

theorem patternLookup_increment_self (db : PatternDB) (p : String)
    (e : PatternEntry) (h : patternLookup db p = some e) :
    patternLookup (patternIncrement db p) p = some { e with count := e.count + 1 } := by
  induction db with
  | nil => simp [patternLookup] at h
  | cons kv rest ih =>
    obtain ⟨k0, e0⟩ := kv
    by_cases hk : k0 = p
    · subst hk
      simp only [patternLookup, if_true, eq_self_iff_true, Option.some.injEq] at h
      subst h
      simp [patternIncrement, patternLookup]
    · simp only [patternLookup, if_neg hk] at h
      simp [patternIncrement, patternLookup, hk, ih h]

theorem patternLookup_increment_ne (db : PatternDB) (p q : String) (h : q ≠ p) :
    patternLookup (patternIncrement db p) q = patternLookup db q := by
  induction db with
  | nil => rfl
  | cons kv rest ih =>
    obtain ⟨k0, e0⟩ := kv
    by_cases hk : k0 = p
    · subst hk
      simp [patternIncrement, patternLookup, Ne.symm h]
    · by_cases hq : k0 = q
      · subst hq
        simp [patternIncrement, patternLookup, hk]
      · simp [patternIncrement, patternLookup, hk, hq, ih]

theorem patternLookup_append_single (db : PatternDB) (k : String)
    (e : PatternEntry) (q : String) :
    patternLookup (db ++ [(k, e)]) q =
      match patternLookup db q with
      | some e0 => some e0
      | none => if k = q then some e else none := by
  induction db with
  | nil => rfl
  | cons kv rest ih =>
    obtain ⟨k0, e0⟩ := kv
    by_cases hk : k0 = q
    · subst hk
      simp [patternLookup]
    · simp [patternLookup, hk, ih]

theorem learnPattern_preserves (now : Nat) (db : PatternDB) (p q : String)
    (e : PatternEntry) (h : patternLookup db q = some e) :
    ∃ e2, patternLookup (learnPattern now db p) q = some e2 ∧
      e2.first_seen = e.first_seen ∧ e.count ≤ e2.count := by
  unfold learnPattern
  cases hp : patternLookup db p with
  | none =>
    refine ⟨e, ?_, rfl, le_refl _⟩
    rw [patternLookup_append_single db p _ q, h]
  | some e0 =>
    by_cases hq : q = p
    · subst hq
      rw [hp] at h
      injection h with h
      subst h
      exact ⟨{ e0 with count := e0.count + 1 },
        patternLookup_increment_self db q e0 hp, rfl, Nat.le_succ _⟩
    · exact ⟨e, by rw [patternLookup_increment_ne db p q hq]; exact h, rfl, le_refl _⟩

theorem countOf_le_learnPattern (now : Nat) (db : PatternDB) (p q : String) :
    countOf db q ≤ countOf (learnPattern now db p) q := by
  cases h : patternLookup db q with
  | none => simp [countOf, h]
  | some e =>
    obtain ⟨e2, h2, _, hc⟩ := learnPattern_preserves now db p q e h
    simpa [countOf, h, h2] using hc

theorem learnPatterns_preserves (db : PatternDB) (now : Nat) (ps : List String)
    (q : String) (e : PatternEntry) (h : patternLookup db q = some e) :
    ∃ e2, patternLookup (learnPatterns db now ps) q = some e2 ∧
      e2.first_seen = e.first_seen ∧ e.count ≤ e2.count := by
  induction ps generalizing db e with
  | nil => exact ⟨e, h, rfl, le_refl _⟩
  | cons p rest ih =>
    obtain ⟨e1, h1, hf1, hc1⟩ := learnPattern_preserves now db p q e h
    obtain ⟨e2, h2, hf2, hc2⟩ := ih (learnPattern now db p) e1 h1
    exact ⟨e2, h2, hf2.trans hf1, hc1.trans hc2⟩

theorem countOf_le_learnPatterns (db : PatternDB) (now : Nat) (ps : List String)
    (q : String) : countOf db q ≤ countOf (learnPatterns db now ps) q := by
  induction ps generalizing db with
  | nil => exact le_refl _
  | cons p rest ih =>
    exact (countOf_le_learnPattern now db p q).trans (ih (learnPattern now db p))

/-- C7: the pattern table is monotone.  An elementary update
(`_learn_patterns` loop body) either inserts an unseen label at the end
with count 1, or increments the label's count by 1 leaving every other
binding untouched; and across any whole `_learn_patterns` call no count
decreases, no entry is removed, and no first-seen timestamp changes.  (The
table is created empty once in `__init__` and `_learn_patterns` is its
only writer, so this covers the session lifetime.) -/
theorem c7_pattern_table_monotone (now : Nat) (db : PatternDB) (p : String)
    (ps : List String) (q : String) :
    (patternLookup db p = none →
      learnPattern now db p =
        db ++ [(p, { first_seen := now, count := 1, contexts := [] })]) ∧
    (∀ e, patternLookup db p = some e →
      patternLookup (learnPattern now db p) p = some { e with count := e.count + 1 } ∧
      ∀ r, r ≠ p → patternLookup (learnPattern now db p) r = patternLookup db r) ∧
    countOf db q ≤ countOf (learnPatterns db now ps) q ∧
    (∀ e, patternLookup db q = some e →
      ∃ e2, patternLookup (learnPatterns db now ps) q = some e2 ∧
        e2.first_seen = e.first_seen ∧ e.count ≤ e2.count) := by
  refine ⟨?_, ?_, countOf_le_learnPatterns db now ps q,
    fun e h => learnPatterns_preserves db now ps q e h⟩
  · intro h
    simp [learnPattern, h]
  · intro e h
    constructor
    · simp only [learnPattern, h]
      exact patternLookup_increment_self db p e h
    · intro r hr
      simp only [learnPattern, h]
      exact patternLookup_increment_ne db p r hr

def dbC7 : PatternDB :=
  [("loading spinner", { first_seen := 5, count := 2, contexts := [] })]

/-- Witness for C7 at a concrete table: an unseen label is inserted with
count 1, and a whole update never lowers an existing count. -/
theorem c7_witness :
    learnPattern 7 dbC7 "error dialog" =
      dbC7 ++ [("error dialog", { first_seen := 7, count := 1, contexts := [] })] ∧
    countOf dbC7 "loading spinner" ≤
      countOf (learnPatterns dbC7 7 ["loading spinner", "error dialog"]) "loading spinner" := by
  have h := c7_pattern_table_monotone 7 dbC7 "error dialog"
    ["loading spinner", "error dialog"] "loading spinner"
  exact ⟨h.1 (by decide), h.2.2.1⟩

/-! ## C8: best-effort sub-calls fail soft -/

/-- C8: sampler and detector failures never escalate.  A failing
pre-debug screenshot capture leaves `_self_debug` with exactly the same
behaviour as a successful one (the routine proceeds with no snapshot
rather than aborting), and a failing YOLO inference makes
`_detect_ui_elements` return the empty element list (with or without a
loaded model) instead of propagating the error. -/
theorem c8_best_effort_failures_never_escalate (e s e2 : String)
    (step : TaskStep) (fixParse : Option Fix) (names : Nat → String) :
    selfDebug (.error e) step fixParse = selfDebug (.ok s) step fixParse ∧
    detectUIElements true names (.error e2) = [] ∧
    detectUIElements false names (.error e2) = [] :=
  ⟨rfl, rfl, rfl⟩

/-! ## C9: the action interpreter rejects malformed actions quietly -/

/-- C9: `_execute_action` returns normally — no automation handler is
dispatched and no exception is raised — both for an action with no colon
(nothing is even logged to the execution log) and for an action whose
command is not one of the nine known commands (only the standard log entry
is appended before the warning). -/
theorem c9_interpreter_ignores_malformed_actions
    (parseFloat : String → Option Rat) (hasPyautogui : Bool) (action : String) :
    (splitColon action = none →
      executeAction parseFloat hasPyautogui action = (.ok .invalidFormat, [])) ∧
    (∀ command param, splitColon action = some (command, param) →
      command ∉ knownCommands →
      (executeAction parseFloat hasPyautogui action).1 =
        .ok (.unknownCommand command param)) := by
  constructor
  · intro h
    unfold executeAction
    rw [h]
  · intro command param h hc
    simp only [knownCommands, List.mem_cons, List.not_mem_nil, or_false] at hc
    push_neg at hc
    obtain ⟨h1, h2, h3, h4, h5, h6, h7, h8, h9⟩ := hc
    unfold executeAction
    rw [h]
    simp [h1, h2, h3, h4, h5, h6, h7, h8, h9]

/-- Witness for C9: a colon-free action and an unknown command, both
returning normally with no dispatched automation. -/
theorem c9_witness :
    executeAction (fun _ => none) true "no colon here" = (.ok .invalidFormat, []) ∧
    (executeAction (fun _ => none) true "frobnicate:now").1 =
      .ok (.unknownCommand "frobnicate" "now") := by
  refine ⟨?_, ?_⟩
  · exact (c9_interpreter_ignores_malformed_actions (fun _ => none) true
      "no colon here").1 (by decide)
  · exact (c9_interpreter_ignores_malformed_actions (fun _ => none) true
      "frobnicate:now").2 "frobnicate" "now" (by decide) (by decide)

/-! ## C10: workflow generation on success -/

/-- When the driver finishes with `all_success = True`, every recorded
`TaskStep` ended with status `"completed"` (each iteration either
completes its step, marks it completed after a fixed failure, or breaks
with the flag `False`). -/
theorem executePlanFrom_success_completed (env : ExecEnv) :
    ∀ (l : List StepData) (i : Nat),
      (executePlanFrom env i l).success = true →
      ∀ s ∈ (executePlanFrom env i l).taskSteps, s.status = "completed" := by
  intro l
  induction l with
  | nil =>
    intro i _ s hs
    simp [executePlanFrom] at hs
  | cons sd rest ih =>
    intro i hsucc s hs
    cases hd : toolDispatch env i sd with
    | ok r =>
      simp only [executePlanFrom, hd] at hsucc hs
      rcases List.mem_cons.mp hs with h | h
      · subst h; rfl
      · exact ih (i + 1) hsucc s h
    | error e =>
      by_cases hb : (env.debug i (failedOf sd e)).2 = true
      · simp only [executePlanFrom, hd, hb, if_true] at hsucc hs
        rcases List.mem_cons.mp hs with h | h
        · subst h; rfl
        · exact ih (i + 1) hsucc s h
      · rw [Bool.not_eq_true] at hb
        simp only [executePlanFrom, hd, hb, Bool.false_eq_true, if_false] at hsucc

theorem buildNodes_length (l : List TaskStep) :
    ∀ i, (∀ s ∈ l, s.status = "completed") →
      (buildNodes i l).1.length = l.length := by
  induction l with
  | nil => intro i _; rfl
  | cons s rest ih =>
    intro i h
    have hs : s.status = "completed" := h s (List.mem_cons_self s rest)
    simp only [buildNodes, hs, if_true, List.length_cons]
    rw [ih (i + 1) (fun t ht => h t (List.mem_cons_of_mem s ht))]

theorem buildNodes_id_mem (l : List TaskStep) :
    ∀ i, (∀ s ∈ l, s.status = "completed") →
      ∀ j, i ≤ j → j < i + l.length →
        nodeId j ∈ (buildNodes i l).1.map Node.id := by
  induction l with
  | nil =>
    intro i _ j h1 h2
    simp at h2
    omega
  | cons s rest ih =>
    intro i h j h1 h2
    have hs : s.status = "completed" := h s (List.mem_cons_self s rest)
    simp only [buildNodes, hs, if_true, List.map_cons, List.mem_cons]
    by_cases hj : j = i
    · subst hj
      exact Or.inl rfl
    · refine Or.inr ?_
      have h2a : j < (i + 1) + rest.length := by
        simp only [List.length_cons] at h2
        omega
      exact ih (i + 1) (fun t ht => h t (List.mem_cons_of_mem s ht)) j (by omega) h2a

theorem buildNodes_conn_shape (l : List TaskStep) :
    ∀ i, (∀ s ∈ l, s.status = "completed") →
      ∀ c ∈ (buildNodes i l).2, ∃ j, 1 ≤ j ∧ i ≤ j ∧ j < i + l.length ∧
        c = { outId := nodeId (j - 1), inId := nodeId j } := by
  induction l with
  | nil =>
    intro i _ c hc
    simp [buildNodes] at hc
  | cons s rest ih =>
    intro i h c hc
    have hs : s.status = "completed" := h s (List.mem_cons_self s rest)
    simp only [buildNodes, hs, if_true] at hc
    rcases List.mem_append.mp hc with h1 | h1
    · by_cases hi : 0 < i
      · rw [if_pos hi] at h1
        have hc2 : c = { outId := nodeId (i - 1), inId := nodeId i } := by
          simpa using h1
        exact ⟨i, by omega, le_refl i, by simp only [List.length_cons]; omega, hc2⟩
      · rw [if_neg hi] at h1
        simp at h1
    · obtain ⟨j, hj1, hj2, hj3, hj4⟩ :=
        ih (i + 1) (fun t ht => h t (List.mem_cons_of_mem s ht)) c h1
      exact ⟨j, hj1, by omega, by simp only [List.length_cons]; omega, hj4⟩

/-- C10: whenever workflow generation runs — which `process_user_message`
does exactly when the execution result's success flag is true — every
recorded task step has status `"completed"`, the generated workflow has
exactly one node per recorded step, and every connection's two endpoint
ids are keys of the workflow's node map. -/
theorem c10_generated_workflow_well_formed (env : ExecEnv) (plan : Plan)
    (wf : Workflow) (h : processGenerateWorkflow env plan = some wf) :
    (∀ s ∈ (executePlan env plan).taskSteps, s.status = "completed") ∧
    wf.nodes.length = (executePlan env plan).taskSteps.length ∧
    (∀ c ∈ wf.connections,
      c.outId ∈ wf.nodes.map Prod.fst ∧ c.inId ∈ wf.nodes.map Prod.fst) := by
  unfold processGenerateWorkflow at h
  split at h
  case isTrue hs =>
    injection h with h
    subst h
    have hcomp : ∀ s ∈ (executePlan env plan).taskSteps, s.status = "completed" :=
      executePlanFrom_success_completed env plan.steps 0 hs
    refine ⟨hcomp, ?_, ?_⟩
    · show ((buildNodes 0 (executePlan env plan).taskSteps).1.map
        (fun n => (n.id, n))).length = _
      rw [List.length_map]
      exact buildNodes_length (executePlan env plan).taskSteps 0 hcomp
    · intro c hc
      have hids : (generateWorkflow (executePlan env plan).taskSteps plan).nodes.map
          Prod.fst = (buildNodes 0 (executePlan env plan).taskSteps).1.map Node.id := by
        show ((buildNodes 0 (executePlan env plan).taskSteps).1.map
          (fun n => (n.id, n))).map Prod.fst = _
        rw [List.map_map]
        rfl
      obtain ⟨j, hj1, hj2, hj3, hj4⟩ :=
        buildNodes_conn_shape (executePlan env plan).taskSteps 0 hcomp c hc
      rw [hids, hj4]
      constructor
      · exact buildNodes_id_mem (executePlan env plan).taskSteps 0 hcomp (j - 1)
          (by omega) (by omega)
      · exact buildNodes_id_mem (executePlan env plan).taskSteps 0 hcomp j
          (by omega) (by omega)
  case isFalse hs =>
    exact absurd h (by simp)

def envC10 : ExecEnv :=
  { clients := ["desktop", "browser", "vision"],
    callTool := fun _ _ => .ok "done",
    debug := fun _ s => (s, false) }

def planC10 : Plan :=
  { task_summary := "demo", task_type := "desktop",
    steps := [{ step_number := 1, description := "open app", tool := "desktop",
                tool_name := "click" },
              { step_number := 2, description := "type text", tool := "desktop",
                tool_name := "type_text" }] }

def wfC10 : Workflow :=
  generateWorkflow (executePlan envC10 planC10).taskSteps planC10

/-- Witness for C10 at a concrete fully-successful two-step plan. -/
theorem c10_witness :
    (∀ s ∈ (executePlan envC10 planC10).taskSteps, s.status = "completed") ∧
    wfC10.nodes.length = (executePlan envC10 planC10).taskSteps.length ∧
    (∀ c ∈ wfC10.connections,
      c.outId ∈ wfC10.nodes.map Prod.fst ∧ c.inId ∈ wfC10.nodes.map Prod.fst) :=
  c10_generated_workflow_well_formed envC10 planC10 wfC10 (by decide)

end OpenAgentStudio
